import Mathlib

/-!
Verification of the lighthouse repository's first-interactive metric,
report-score aggregation and artifact cache against its specification.

Times are modelled as real numbers (the source computes with JS numbers and
`Math.exp`; the claims under study are about exact values, not float
rounding).  Audit scores and weights in the report generator are modelled
as exact rationals together with the JS special values `Infinity`,
`-Infinity` and `NaN`, since the generator's arithmetic can reach them.
Code that can throw is modelled with `Except String`.
-/

namespace Lighthouse

/-- A main-thread top-level task from the trace: `{start, end}` in
milliseconds.  The JS field `end` is a Lean keyword, so it is named `stop`
here; `duration` is `stop - start` as in the source. -/
structure Task where
  start : ℝ
  stop : ℝ


instance : Inhabited Task := ⟨⟨0, 0⟩⟩

/-- Constant `LONG_TASK_THRESHOLD` from first-interactive.js. -/
def LONG_TASK_THRESHOLD : ℝ := 50

/-- Constant `MAX_TASK_CLUSTER_DURATION` from first-interactive.js. -/
def MAX_TASK_CLUSTER_DURATION : ℝ := 250

/-- Constant `MIN_TASK_CLUSTER_PADDING` from first-interactive.js. -/
def MIN_TASK_CLUSTER_PADDING : ℝ := 1000

/-- Constant `MIN_TASK_CLUSTER_FMP_DISTANCE` from first-interactive.js. -/
def MIN_TASK_CLUSTER_FMP_DISTANCE : ℝ := 5000

/-- Constant `MAX_QUIET_WINDOW_SIZE` from first-interactive.js. -/
def MAX_QUIET_WINDOW_SIZE : ℝ := 5000

/-- Constant `TRACE_BUSY_MSG` from first-interactive.js. -/
def TRACE_BUSY_MSG : String := "trace was busy the entire time"

/-- Message of the short-trace check in `computeWithArtifacts`. -/
def SHORT_TRACE_MSG : String := "trace not at least 5 seconds longer than FMP"

/-- Embeds `FirstInteractive.getRequiredWindowSizeInMs`:
`tInSeconds = t / 1000; (4 * Math.exp(-.045 * tInSeconds) + 1) * 1000`. -/
noncomputable def getRequiredWindowSizeInMs (t : ℝ) : ℝ :=
  let tInSeconds := t / 1000
  let exponentiationComponent := Real.exp (-0.045 * tInSeconds)
  (4 * exponentiationComponent + 1) * 1000

/-- Loop body of the clustering pass in `getTaskClustersInWindow`.
`current` is the cluster being built (task order preserved) and `prevEnd`
is `previousTaskEndTime`.  In the source the state starts with
`previousTaskEndTime = -Infinity` and `currentCluster = null`, so the very
first task always opens a new cluster; `clusterTasks` below encodes that
by seeding the recursion with the first task already in a cluster. -/
noncomputable def clusterGo (prevEnd : ℝ) (current : List Task) :
    List Task → List (List Task)
  | [] => [current]
  | task :: rest =>
    if task.start - prevEnd > MIN_TASK_CLUSTER_PADDING then
      current :: clusterGo task.stop [task] rest
    else
      clusterGo task.stop (current ++ [task]) rest

/-- The clustering pass of `getTaskClustersInWindow`: walk the considered
tasks in order, opening a new cluster whenever the gap from the previous
task's end exceeds `MIN_TASK_CLUSTER_PADDING`. -/
noncomputable def clusterTasks : List Task → List (List Task)
  | [] => []
  | task :: rest => clusterGo task.stop [task] rest

/-- A task cluster as produced by `getTaskClustersInWindow`:
`start` of the first member, `end` (here `stop`) of the last member,
`duration = end - start`, plus the member tasks. -/
structure Cluster where
  start : ℝ
  stop : ℝ
  duration : ℝ
  tasks : List Task


/-- The `.map` step of `getTaskClustersInWindow`:
`{start: tasks[0].start, end: tasks[tasks.length-1].end, duration: end - start, tasks}`.
Task lists fed to it are never empty; the `[]` case returns junk. -/
noncomputable def mkCluster (tasks : List Task) : Cluster :=
  let start := ((tasks.head?).map Task.start).getD 0
  let stop := ((tasks.getLast?).map Task.stop).getD 0
  ⟨start, stop, stop - start, tasks⟩

/-- Embeds `FirstInteractive.getTaskClustersInWindow(tasks, startIndex, windowEnd)`:
scan tasks from `startIndex` while `task.start < windowEnd + 1000`
(the JS `for` loop stops at the first failure), cluster them, decorate
each cluster, and drop clusters with `cluster.start >= windowEnd`. -/
noncomputable def getTaskClustersInWindow (tasks : List Task) (startIndex : Nat)
    (windowEnd : ℝ) : List Cluster :=
  let clusteringWindowEnd := windowEnd + MIN_TASK_CLUSTER_PADDING
  let considered :=
    (tasks.drop startIndex).takeWhile fun task =>
      decide (task.start < clusteringWindowEnd)
  ((clusterTasks considered).map mkCluster).filter fun cluster =>
    decide (cluster.start < windowEnd)

/-- Embeds the predicate `isBadCluster` of `findQuietWindow`:
`isTooCloseToFMP(cluster) || isTooLong(cluster)`. -/
noncomputable def isBadCluster (FMP : ℝ) (cluster : Cluster) : Bool :=
  decide (cluster.start < FMP + MIN_TASK_CLUSTER_FMP_DISTANCE)
    || decide (cluster.duration > MAX_TASK_CLUSTER_DURATION)

/-- The `for` loop of `findQuietWindow`.  `rest` is the suffix of
`longTasks` from index `i`; the full list is also passed because the
cluster scan restarts from index `i + 1` of the whole list. -/
noncomputable def quietLoop (FMP traceEnd : ℝ) (longTasks : List Task) :
    List Task → Nat → Except String ℝ
  | [], _ => Except.error TRACE_BUSY_MSG
  | event :: rest, i =>
    let windowStart := event.stop
    let windowSize := getRequiredWindowSizeInMs (windowStart - FMP)
    let windowEnd := windowStart + windowSize
    if windowEnd > traceEnd then
      Except.error TRACE_BUSY_MSG
    else if (getTaskClustersInWindow longTasks (i + 1) windowEnd).any
        (isBadCluster FMP) then
      quietLoop FMP traceEnd longTasks rest (i + 1)
    else
      Except.ok windowStart

/-- Embeds `FirstInteractive.findQuietWindow(FMP, traceEnd, longTasks)`.
A thrown `Error` becomes `Except.error` with the same message. -/
noncomputable def findQuietWindow (FMP traceEnd : ℝ) (longTasks : List Task) :
    Except String ℝ :=
  match longTasks with
  | [] => Except.ok FMP
  | t0 :: _ =>
    if t0.start > FMP + MAX_QUIET_WINDOW_SIZE then
      Except.ok FMP
    else
      quietLoop FMP traceEnd longTasks longTasks 0

/-- The long-task filter in `computeWithArtifacts`:
`evt.end - evt.start >= LONG_TASK_THRESHOLD && evt.end > FMP`. -/
noncomputable def longTasksAfterFMP (FMP : ℝ) (events : List Task) : List Task :=
  events.filter fun evt =>
    decide (evt.stop - evt.start ≥ LONG_TASK_THRESHOLD) && decide (evt.stop > FMP)

/-- Embeds `FirstInteractive.computeWithArtifacts`.  The trace artifacts are
given by the timestamps `navStart`, `FMP`, `DCL`, `traceEnd` and the
main-thread top-level events extracted from the trace model (the extractor
itself lives outside this repository's shown sources).  The result is the
pair `(timeInMs, timestamp)`. -/
noncomputable def computeWithArtifacts (navStart FMP DCL traceEnd : ℝ)
    (events : List Task) : Except String (ℝ × ℝ) :=
  if traceEnd - FMP < MAX_QUIET_WINDOW_SIZE then
    Except.error SHORT_TRACE_MSG
  else
    (findQuietWindow FMP traceEnd (longTasksAfterFMP FMP events)).map
      fun firstInteractive =>
        let valueInMs := max firstInteractive DCL
        (valueInMs, (valueInMs + navStart) * 1000)

/-- Window start of candidate `j` in `findQuietWindow`: the end of long
task `j` (junk past the end of the list). -/
noncomputable def candStart (tasks : List Task) (j : Nat) : ℝ :=
  (tasks.getD j default).stop

/-- Window end of candidate `j`:
`windowStart + getRequiredWindowSizeInMs(windowStart - FMP)`. -/
noncomputable def candEnd (FMP : ℝ) (tasks : List Task) (j : Nat) : ℝ :=
  candStart tasks j + getRequiredWindowSizeInMs (candStart tasks j - FMP)

/-- Candidate `j`'s window fits inside the trace: the negation of the
`windowEnd > traceEnd` throw condition. -/
noncomputable def candFits (FMP traceEnd : ℝ) (tasks : List Task) (j : Nat) : Prop :=
  candEnd FMP tasks j ≤ traceEnd

/-- Candidate `j`'s window is quiet: the cluster scan from index `j + 1`
finds no bad cluster (the source's `!hasBadTaskClusters`). -/
noncomputable def candQuiet (FMP : ℝ) (tasks : List Task) (j : Nat) : Prop :=
  (getTaskClustersInWindow tasks (j + 1) (candEnd FMP tasks j)).any
    (isBadCluster FMP) = false

/-- A JS number value reachable in the report generator: an exact rational,
or one of the special values `Infinity`, `-Infinity`, `NaN`.  Signed zero
is identified with `0` (no reachable operation distinguishes them here). -/
inductive JNum where
  | fin : ℚ → JNum
  | posInf : JNum
  | negInf : JNum
  | nan : JNum
deriving DecidableEq

/-- JS addition on `JNum` (exact, no rounding). -/
def JNum.add : JNum → JNum → JNum
  | nan, _ => nan
  | _, nan => nan
  | posInf, negInf => nan
  | posInf, _ => posInf
  | negInf, posInf => nan
  | negInf, _ => negInf
  | fin _, posInf => posInf
  | fin _, negInf => negInf
  | fin a, fin b => fin (a + b)

/-- JS multiplication on `JNum` (exact, no rounding). -/
def JNum.mul : JNum → JNum → JNum
  | nan, _ => nan
  | _, nan => nan
  | fin a, fin b => fin (a * b)
  | posInf, fin b => if b = 0 then nan else if 0 < b then posInf else negInf
  | fin a, posInf => if a = 0 then nan else if 0 < a then posInf else negInf
  | negInf, fin b => if b = 0 then nan else if 0 < b then negInf else posInf
  | fin a, negInf => if a = 0 then nan else if 0 < a then negInf else posInf
  | posInf, posInf => posInf
  | posInf, negInf => negInf
  | negInf, posInf => negInf
  | negInf, negInf => posInf

/-- JS division on `JNum`.  A zero divisor is the unsigned `+0` (the only
zero reachable from exact sums), so `a / 0` is `NaN` for `a = 0` and a
signed infinity otherwise. -/
def JNum.div : JNum → JNum → JNum
  | nan, _ => nan
  | _, nan => nan
  | fin a, fin b =>
    if b = 0 then (if a = 0 then nan else if 0 < a then posInf else negInf)
    else fin (a / b)
  | posInf, fin b => if 0 ≤ b then posInf else negInf
  | negInf, fin b => if 0 ≤ b then negInf else posInf
  | fin _, posInf => fin 0
  | fin _, negInf => fin 0
  | posInf, posInf => nan
  | posInf, negInf => nan
  | negInf, posInf => nan
  | negInf, negInf => nan

/-- A JS value as it appears in audit scores and weights: a number, a
boolean, `null`, or `undefined` (also standing for an absent property). -/
inductive JSVal where
  | num : JNum → JSVal
  | boolean : Bool → JSVal
  | null : JSVal
  | undefined : JSVal
deriving DecidableEq

/-- JS `Number(v)` on the values of `JSVal`. -/
def toNumber : JSVal → JNum
  | JSVal.num x => x
  | JSVal.boolean b => JNum.fin (if b then 1 else 0)
  | JSVal.null => JNum.fin 0
  | JSVal.undefined => JNum.nan

/-- The JS idiom `x || 0` on a number: `NaN` and `0` are falsy and become
`0`; infinities and nonzero numbers pass through. -/
def jsOrZero : JNum → JNum
  | JNum.nan => JNum.fin 0
  | JNum.fin q => if q = 0 then JNum.fin 0 else JNum.fin q
  | JNum.posInf => JNum.posInf
  | JNum.negInf => JNum.negInf

/-- The normalisation `Number(v) || 0` applied to scores and weights inside
`arithmeticMean`. -/
def toNumberOrZero (v : JSVal) : JNum :=
  jsOrZero (toNumber v)

/-- An item fed to `arithmeticMean`: an object with `score` and `weight`
properties (either may be any JS value). -/
structure ScoreItem where
  score : JSVal
  weight : JSVal
deriving DecidableEq

/-- The `reduce` accumulator of `ReportGeneratorV2.arithmeticMean`:
`(weight, sum)` built with `Number(item.score) || 0` and
`Number(item.weight) || 0`, starting from `{weight: 0, sum: 0}`. -/
def meanAccum (items : List ScoreItem) : JNum × JNum :=
  items.foldl
    (fun result item =>
      let score := toNumberOrZero item.score
      let weight := toNumberOrZero item.weight
      (JNum.add result.1 weight, JNum.add result.2 (JNum.mul score weight)))
    (JNum.fin 0, JNum.fin 0)

/-- Embeds `ReportGeneratorV2.arithmeticMean(items)`:
`(results.sum / results.weight) || 0`. -/
def arithmeticMean (items : List ScoreItem) : JNum :=
  let results := meanAccum items
  jsOrZero (JNum.div results.2 results.1)

/-- An audit reference in the scoring configuration: `{id, weight, ...}`. -/
structure AuditRef where
  id : String
  weight : JSVal
deriving DecidableEq

/-- A category object of the scoring configuration.  `id` models the
property that `generateReportJson` assigns; a fresh configuration has
`id = none`.  `weight` is the category weight used for the overall score. -/
structure CategoryConfig where
  id : Option String
  name : String
  description : String
  weight : JSVal
  audits : List AuditRef
deriving DecidableEq

/-- The scoring configuration: `config.categories`, an object whose key
order (`Object.keys`) is modelled by the list order. -/
structure Config where
  categories : List (String × CategoryConfig)
deriving DecidableEq

/-- A raw audit result; only `score` matters to the generator. -/
structure AuditResult where
  score : JSVal
deriving DecidableEq

/-- The mapping of audit id to raw result, in JS an object. -/
abbrev ResultsById := List (String × AuditResult)

/-- Property access `resultsByAuditId[audit.id]`: `none` models
`undefined`. -/
def lookupResult (results : ResultsById) (id : String) : Option AuditResult :=
  (results.find? fun p => p.1 == id).map Prod.snd

/-- The score normalisation in `generateReportJson`:
`let auditScore = Number(result.score) || 0;` then booleans are remapped to
`100 / 0`. -/
def auditScoreOf (score : JSVal) : JNum :=
  match score with
  | JSVal.boolean b => JNum.fin (if b then 100 else 0)
  | v => toNumberOrZero v

/-- An entry of a scored category's `audits` array:
`Object.assign({}, audit, {result, score})`. -/
structure ScoredAudit where
  audit : AuditRef
  result : AuditResult
  score : JNum
deriving DecidableEq

/-- One step of the `category.audits.map` in `generateReportJson`.
A missing entry in `resultsByAuditId` makes `result.score` a property
access on `undefined`, which throws a `TypeError`. -/
def scoreOneAudit (results : ResultsById) (audit : AuditRef) :
    Except String ScoredAudit :=
  match lookupResult results audit.id with
  | none => Except.error "TypeError: Cannot read property score of undefined"
  | some result => Except.ok ⟨audit, result, auditScoreOf result.score⟩

/-- JS `Array.prototype.map` over a callback that can throw: the first
exception aborts the whole map. -/
def mapExcept (f : α → Except ε β) : List α → Except ε (List β)
  | [] => Except.ok []
  | a :: l =>
    match f a with
    | Except.error e => Except.error e
    | Except.ok b =>
      match mapExcept f l with
      | Except.error e => Except.error e
      | Except.ok bs => Except.ok (b :: bs)

/-- A scored category: `Object.assign({}, category, {audits, score})`,
where `category` already carries the freshly written `id`. -/
structure ScoredCategory where
  key : String
  category : CategoryConfig
  audits : List ScoredAudit
  score : JNum
deriving DecidableEq

/-- Scores one category's audits and computes
`ReportGeneratorV2.arithmeticMean(audits)` over items whose `score` is the
normalised audit score and whose `weight` comes from the audit config. -/
def scoreCategory (results : ResultsById) (cat : CategoryConfig) :
    Except String (List ScoredAudit × JNum) :=
  match mapExcept (scoreOneAudit results) cat.audits with
  | Except.error e => Except.error e
  | Except.ok scored =>
    let items := scored.map fun sa =>
      ScoreItem.mk (JSVal.num sa.score) sa.audit.weight
    Except.ok (scored, arithmeticMean items)

/-- The `Object.keys(config.categories).map` of `generateReportJson`,
with the mutation `category.id = categoryId` made explicit: returns the
report categories (or the thrown error) together with the post-state of
`config.categories`.  The callback for a category runs to completion
(stamping `id` first) before the next category is visited, so an exception
leaves a stamped prefix and an untouched suffix. -/
def processCategories (results : ResultsById) :
    List (String × CategoryConfig) →
      Except String (List ScoredCategory) × List (String × CategoryConfig)
  | [] => (Except.ok [], [])
  | (categoryId, category) :: rest =>
    let stamped : CategoryConfig := { category with id := some categoryId }
    match scoreCategory results stamped with
    | Except.error e => (Except.error e, (categoryId, stamped) :: rest)
    | Except.ok (scored, categoryScore) =>
      let restOut := processCategories results rest
      match restOut.1 with
      | Except.error e => (Except.error e, (categoryId, stamped) :: restOut.2)
      | Except.ok cats =>
        (Except.ok (ScoredCategory.mk categoryId stamped scored categoryScore
            :: cats),
          (categoryId, stamped) :: restOut.2)

/-- A legacy aggregation record from `ReportGeneratorV2._getAggregations`;
the single-element `score` array is flattened into `overall`/`subItems`. -/
structure Aggregation where
  name : String
  description : String
  categorizable : Bool
  scored : Bool
  total : JNum
  overall : JNum
  subItems : List AuditResult
deriving DecidableEq

/-- Embeds `ReportGeneratorV2._getAggregations(reportCategories)`. -/
def getAggregations (reportCategories : List ScoredCategory) :
    List Aggregation :=
  reportCategories.map fun category =>
    let total := JNum.div category.score (JNum.fin 100)
    { name := category.category.name
      description := category.category.description
      categorizable := false
      scored := category.key == "pwa"
      total := total
      overall := total
      subItems := category.audits.map ScoredAudit.result }

/-- The report object `{score, categories, aggregations}`. -/
structure Report where
  score : JNum
  categories : List ScoredCategory
  aggregations : List Aggregation
deriving DecidableEq

/-- Embeds `ReportGeneratorV2.generateReportJson(config, resultsByAuditId)`.
The first component is the returned report (or the thrown error); the
second is the state of `config` after the call, reflecting the in-place
writes `category.id = categoryId`. -/
def generateReportJson (config : Config) (results : ResultsById) :
    Except String Report × Config :=
  let processed := processCategories results config.categories
  match processed.1 with
  | Except.error e => (Except.error e, ⟨processed.2⟩)
  | Except.ok categories =>
    let overallScore := arithmeticMean (categories.map fun c =>
      ScoreItem.mk (JSVal.num c.score) c.category.weight)
    (Except.ok
        { score := overallScore
          categories := categories
          aggregations := getAggregations categories },
      ⟨processed.2⟩)

/-- Writes the key of a config entry into its category's `id` property:
the per-category effect of `generateReportJson` on the caller's config. -/
def stampCategory (p : String × CategoryConfig) : String × CategoryConfig :=
  (p.1, { p.2 with id := some p.1 })

/-- A placeholder config entry for positional (`getD`) statements. -/
def dummyCategory : String × CategoryConfig :=
  ("", ⟨none, "", "", JSVal.undefined, []⟩)

/-- Modelled from the spec: the Artifact Cache component
(`computed-artifact.js`, required by first-interactive.js) is not among
the shown sources.  Per §4.3, a cache entry maps an artifact key to the
one pending or completed computation for that key; a failed computation is
cached as a failure.  The entry stores the settled outcome of the single
computation, which every attached requester observes. -/
structure ArtifactCache (V : Type) where
  entries : List (String × Except String V)

/-- Modelled from the spec: one `request(artifactName)` call.  If an entry
for the key exists (in flight or complete), the caller attaches to it and
no new computation starts; otherwise the computation (with outcome
`compute`) runs once and its entry is stored.  The `Nat` counts underlying
computations started by this call. -/
def requestArtifact {V : Type} (compute : Except String V)
    (cache : ArtifactCache V) (key : String) :
    ArtifactCache V × Except String V × Nat :=
  match cache.entries.find? fun p => p.1 == key with
  | some p => (cache, p.2, 0)
  | none => (⟨(key, compute) :: cache.entries⟩, compute, 1)

/-- Modelled from the spec: `n` requests for the same key.  In the
single-threaded cooperative model of §5, concurrent callers issue their
requests in some sequential order, each before or after the others'
completions; the cache entry is installed synchronously by the first, so
the order beyond the first does not matter.  Returns the final cache, the
per-caller results in order, and the total number of computations run. -/
def requestTimes {V : Type} (compute : Except String V) (key : String) :
    Nat → ArtifactCache V → ArtifactCache V × List (Except String V) × Nat
  | 0, cache => (cache, [], 0)
  | Nat.succ n, cache =>
    let step := requestArtifact compute cache key
    let restOut := requestTimes compute key n step.1
    (restOut.1, step.2.1 :: restOut.2.1, step.2.2 + restOut.2.2)


/-- Concrete two-category configuration whose first category references an
audit id; used to exhibit the exception path of `generateReportJson`. -/
def cfgC10 : Config :=
  ⟨[("c1", ⟨none, "First", "", JSVal.num (JNum.fin 1),
      [⟨"a", JSVal.num (JNum.fin 1)⟩]⟩),
    ("c2", ⟨none, "Second", "", JSVal.num (JNum.fin 1), []⟩)]⟩

/-- Concrete one-category configuration with no audits; report generation
succeeds on it with an empty results mapping. -/
def cfgSmall : Config :=
  ⟨[("c", ⟨none, "N", "", JSVal.num (JNum.fin 1), []⟩)]⟩

/-- C1: if `traceEnd - FMP < 5000` then `computeWithArtifacts` fails with
the short-trace error regardless of task contents; otherwise, when the
quiet-window search over the long tasks returns a candidate `c`, it
returns `timeInMs = max c DCL` and `timestamp = (timeInMs + navStart) * 1000`;
in particular `FMP = 1000, DCL = 500, traceEnd = 10000` and no events give
`timeInMs = 1000`. -/
theorem claim_C1 (navStart FMP DCL traceEnd : ℝ) (events : List Task) :
    (traceEnd - FMP < 5000 →
      computeWithArtifacts navStart FMP DCL traceEnd events =
        Except.error SHORT_TRACE_MSG)
    ∧ (∀ c : ℝ, 5000 ≤ traceEnd - FMP →
        findQuietWindow FMP traceEnd (longTasksAfterFMP FMP events) =
          Except.ok c →
        computeWithArtifacts navStart FMP DCL traceEnd events =
          Except.ok (max c DCL, (max c DCL + navStart) * 1000))
    ∧ computeWithArtifacts navStart 1000 500 10000 [] =
        Except.ok (1000, (1000 + navStart) * 1000) := by
  refine ⟨?_, ?_, ?_⟩
  · intro h
    unfold computeWithArtifacts
    rw [if_pos (by simpa [MAX_QUIET_WINDOW_SIZE] using h)]
  · intro c h1 h2
    unfold computeWithArtifacts
    rw [if_neg (by unfold MAX_QUIET_WINDOW_SIZE; exact not_lt.mpr h1), h2]
    rfl
  · unfold computeWithArtifacts
    rw [if_neg (by norm_num [MAX_QUIET_WINDOW_SIZE])]
    have h1 : longTasksAfterFMP 1000 [] = [] := rfl
    rw [h1]
    show Except.map _ (Except.ok 1000) = _
    simp [Except.map]
    norm_num

theorem claim_C1_witness :
    computeWithArtifacts 0 1000 500 4000 [] = Except.error SHORT_TRACE_MSG
    ∧ computeWithArtifacts 7 1000 500 10000 [] =
        Except.ok (max 1000 500, (max 1000 500 + 7) * 1000)
    ∧ computeWithArtifacts 3 1000 500 10000 [] =
        Except.ok (1000, (1000 + 3) * 1000) :=
  ⟨(claim_C1 0 1000 500 4000 []).1 (by norm_num),
   (claim_C1 7 1000 500 10000 []).2.1 1000 (by norm_num) rfl,
   (claim_C1 3 1000 500 10000 []).2.2⟩

/-- C2: with an empty long-task list, or a first long task starting
strictly more than 5000ms after FMP, `findQuietWindow` returns FMP
whatever the later tasks are. -/
theorem claim_C2 (FMP traceEnd : ℝ) (tasks : List Task)
    (h : tasks = [] ∨ ∃ t0 rest, tasks = t0 :: rest ∧ t0.start > FMP + 5000) :
    findQuietWindow FMP traceEnd tasks = Except.ok FMP := by
  rcases h with h | ⟨t0, rest, rfl, ht⟩
  · subst h; rfl
  · show (if t0.start > FMP + MAX_QUIET_WINDOW_SIZE then Except.ok FMP
        else quietLoop FMP traceEnd (t0 :: rest) (t0 :: rest) 0) =
      Except.ok FMP
    rw [if_pos (by simpa [MAX_QUIET_WINDOW_SIZE] using ht)]

theorem claim_C2_witness :
    findQuietWindow 0 42 [⟨6000, 6100⟩] = Except.ok 0 :=
  claim_C2 0 42 [⟨6000, 6100⟩]
    (Or.inr ⟨⟨6000, 6100⟩, [], rfl, by norm_num⟩)

/-- C3: a cluster is bad exactly when it starts less than 5000ms after FMP
or its duration exceeds 250ms; a candidate window is quiet exactly when no
cluster in it is bad; a cluster starting before `FMP + 5000` is bad even
with duration 0; an isolated 251ms task after `FMP + 5000` makes its
window's bad-cluster check fire while a 250ms one does not. -/
theorem claim_C3 (FMP : ℝ) :
    (∀ c : Cluster,
      isBadCluster FMP c = true ↔ c.start < FMP + 5000 ∨ c.duration > 250)
    ∧ (∀ (tasks : List Task) (j : Nat), candQuiet FMP tasks j ↔
        ∀ c ∈ getTaskClustersInWindow tasks (j + 1) (candEnd FMP tasks j),
          isBadCluster FMP c = false)
    ∧ (∀ c : Cluster, c.start < FMP + 5000 → c.duration = 0 →
        isBadCluster FMP c = true)
    ∧ (∀ (t : Task) (windowEnd : ℝ), t.start < windowEnd →
        getTaskClustersInWindow [t] 0 windowEnd =
          [⟨t.start, t.stop, t.stop - t.start, [t]⟩]
        ∧ (t.start > FMP + 5000 → t.stop - t.start = 251 →
            (getTaskClustersInWindow [t] 0 windowEnd).any (isBadCluster FMP)
              = true)
        ∧ (t.start > FMP + 5000 → t.stop - t.start = 250 →
            (getTaskClustersInWindow [t] 0 windowEnd).any (isBadCluster FMP)
              = false)) := by
  refine ⟨?_, ?_, ?_, ?_⟩
  · intro c
    simp [isBadCluster, MIN_TASK_CLUSTER_FMP_DISTANCE,
      MAX_TASK_CLUSTER_DURATION]
  · intro tasks j
    simp [candQuiet, List.any_eq_false]
  · intro c h1 h2
    simp [isBadCluster, MIN_TASK_CLUSTER_FMP_DISTANCE, h1]
  · intro t windowEnd hin
    have hp : t.start < windowEnd + 1000 := by linarith
    have hmain : getTaskClustersInWindow [t] 0 windowEnd =
        [⟨t.start, t.stop, t.stop - t.start, [t]⟩] := by
      simp [getTaskClustersInWindow, clusterTasks, clusterGo, mkCluster,
        MIN_TASK_CLUSTER_PADDING, hp, hin]
    refine ⟨hmain, ?_, ?_⟩
    · intro hfar hdur
      rw [hmain]
      simp [isBadCluster, MAX_TASK_CLUSTER_DURATION, hdur]
      exact Or.inr (by norm_num)
    · intro hfar hdur
      rw [hmain]
      simp [isBadCluster, MAX_TASK_CLUSTER_DURATION,
        MIN_TASK_CLUSTER_FMP_DISTANCE, hdur]
      linarith

theorem claim_C3_witness :
    isBadCluster 0 ⟨4000, 4000, 0, []⟩ = true
    ∧ (getTaskClustersInWindow [⟨6000, 6251⟩] 0 7000).any (isBadCluster 0)
        = true
    ∧ (getTaskClustersInWindow [⟨6000, 6250⟩] 0 7000).any (isBadCluster 0)
        = false :=
  ⟨(claim_C3 0).2.2.1 ⟨4000, 4000, 0, []⟩ (by norm_num) rfl,
   ((claim_C3 0).2.2.2 ⟨6000, 6251⟩ 7000 (by norm_num)).2.1 (by norm_num)
     (by norm_num),
   ((claim_C3 0).2.2.2 ⟨6000, 6250⟩ 7000 (by norm_num)).2.2 (by norm_num)
     (by norm_num)⟩

/-- For a task list with nondecreasing starts, the scan that stops at the
first task at or past the bound keeps exactly the tasks before it. -/
theorem takeWhile_lt_eq_filter (C : ℝ) (l : List Task)
    (h : l.Pairwise fun a b => a.start ≤ b.start) :
    l.takeWhile (fun t => decide (t.start < C)) =
      l.filter (fun t => decide (t.start < C)) := by
  induction l with
  | nil => rfl
  | cons t ts ih =>
    rw [List.pairwise_cons] at h
    by_cases hc : t.start < C
    · rw [List.takeWhile_cons_of_pos (by simpa using hc),
        List.filter_cons_of_pos (by simpa using hc), ih h.2]
    · rw [List.takeWhile_cons_of_neg (by simpa using hc),
        List.filter_cons_of_neg (by simpa using hc)]
      rw [eq_comm, List.filter_eq_nil_iff]
      intro u hu
      simp only [decide_eq_true_eq]
      intro hlt
      exact hc (lt_of_le_of_lt (h.1 u hu) hlt)

/-- C4: on a sorted, non-overlapping task list, the cluster scan from index
`i + 1` considers exactly the later tasks starting before
`windowEnd + 1000`, opens a new cluster exactly when a task starts more
than 1000ms after the previous considered task's end, decorates clusters
with `start`/`end`/`duration = end - start`, and discards clusters whose
start is at or past `windowEnd`; two tasks with gap at most 1000ms form
one cluster, with a larger gap two. -/
theorem claim_C4 (tasks : List Task) (i : Nat) (windowEnd : ℝ)
    (hsorted : tasks.Pairwise fun a b => a.start ≤ b.start ∧ a.stop ≤ b.start) :
    getTaskClustersInWindow tasks (i + 1) windowEnd =
      ((clusterTasks ((tasks.drop (i + 1)).filter fun t =>
          decide (t.start < windowEnd + 1000))).map mkCluster).filter
        (fun c => decide (c.start < windowEnd))
    ∧ (∀ (prevEnd : ℝ) (current : List Task) (task : Task) (rest : List Task),
        clusterGo prevEnd current (task :: rest) =
          if task.start - prevEnd > 1000 then
            current :: clusterGo task.stop [task] rest
          else clusterGo task.stop (current ++ [task]) rest)
    ∧ (∀ (t : Task) (ts : List Task),
        (mkCluster (t :: ts)).start = t.start
        ∧ (mkCluster (t :: ts)).stop =
            ((t :: ts).getLast (List.cons_ne_nil t ts)).stop
        ∧ (mkCluster (t :: ts)).duration =
            (mkCluster (t :: ts)).stop - (mkCluster (t :: ts)).start)
    ∧ (∀ c ∈ getTaskClustersInWindow tasks (i + 1) windowEnd,
        c.start < windowEnd)
    ∧ (∀ t1 t2 : Task,
        (t2.start - t1.stop ≤ 1000 → clusterTasks [t1, t2] = [[t1, t2]])
        ∧ (t2.start - t1.stop > 1000 → clusterTasks [t1, t2] = [[t1], [t2]])) := by
  refine ⟨?_, ?_, ?_, ?_, ?_⟩
  · have hpair : (tasks.drop (i + 1)).Pairwise fun a b => a.start ≤ b.start :=
      (List.Pairwise.sublist (List.drop_sublist (i + 1) tasks) hsorted).imp
        fun h => h.1
    have hconsidered : (tasks.drop (i + 1)).takeWhile
        (fun task => decide (task.start < windowEnd + MIN_TASK_CLUSTER_PADDING)) =
        (tasks.drop (i + 1)).filter fun t => decide (t.start < windowEnd + 1000) := by
      rw [show windowEnd + MIN_TASK_CLUSTER_PADDING = windowEnd + 1000 from rfl]
      exact takeWhile_lt_eq_filter (windowEnd + 1000) (tasks.drop (i + 1)) hpair
    show ((clusterTasks ((tasks.drop (i + 1)).takeWhile fun task =>
        decide (task.start < windowEnd + MIN_TASK_CLUSTER_PADDING))).map
        mkCluster).filter (fun cluster => decide (cluster.start < windowEnd)) = _
    rw [hconsidered]
  · intro prevEnd current task rest
    rfl
  · intro t ts
    refine ⟨rfl, ?_, rfl⟩
    simp [mkCluster, List.getLast?_eq_getLast]
  · intro c hc
    have := (List.mem_filter.mp hc).2
    simpa using this
  · intro t1 t2
    constructor
    · intro hgap
      simp only [clusterTasks, clusterGo, MIN_TASK_CLUSTER_PADDING]
      rw [if_neg (not_lt.mpr hgap)]
      rfl
    · intro hgap
      simp only [clusterTasks, clusterGo, MIN_TASK_CLUSTER_PADDING]
      rw [if_pos hgap]

theorem claim_C4_witness :
    clusterTasks [⟨0, 100⟩, ⟨600, 700⟩] = [[⟨0, 100⟩, ⟨600, 700⟩]]
    ∧ clusterTasks [⟨0, 100⟩, ⟨2000, 2100⟩] = [[⟨0, 100⟩], [⟨2000, 2100⟩]] :=
  ⟨((claim_C4 [⟨0, 100⟩, ⟨600, 700⟩] 0 5000
      (by constructor
          · intro b hb
            simp at hb
            subst hb
            norm_num
          · simp)).2.2.2.2 ⟨0, 100⟩ ⟨600, 700⟩).1 (by norm_num),
   ((claim_C4 [⟨0, 100⟩, ⟨600, 700⟩] 0 5000
      (by constructor
          · intro b hb
            simp at hb
            subst hb
            norm_num
          · simp)).2.2.2.2 ⟨0, 100⟩ ⟨2000, 2100⟩).2 (by norm_num)⟩

/-- Unfolding of one iteration of the `findQuietWindow` loop. -/
theorem quietLoop_cons (FMP traceEnd : ℝ) (tasks : List Task) (e : Task)
    (rest : List Task) (i : Nat) :
    quietLoop FMP traceEnd tasks (e :: rest) i =
      if e.stop + getRequiredWindowSizeInMs (e.stop - FMP) > traceEnd then
        Except.error TRACE_BUSY_MSG
      else if (getTaskClustersInWindow tasks (i + 1)
          (e.stop + getRequiredWindowSizeInMs (e.stop - FMP))).any
          (isBadCluster FMP) then
        quietLoop FMP traceEnd tasks rest (i + 1)
      else Except.ok e.stop := rfl

/-- Index facts extracted from a suffix decomposition of the task list. -/
theorem drop_cons_facts (tasks : List Task) (e : Task) (rest : List Task)
    (i : Nat) (h : tasks.drop i = e :: rest) :
    i < tasks.length ∧ candStart tasks i = e.stop ∧ tasks.drop (i + 1) = rest := by
  have hi : i < tasks.length := by
    by_contra hle
    rw [List.drop_eq_nil_iff.mpr (by omega)] at h
    exact absurd h (by simp)
  have hsome : tasks[i]? = some e := by
    have h0 := List.getElem?_drop tasks i 0
    rw [h] at h0
    simpa using h0.symm
  refine ⟨hi, ?_, ?_⟩
  · rw [candStart, List.getD_eq_getElem?_getD, hsome]
    rfl
  · rw [← List.tail_drop, h]
    rfl

/-- Characterisation of the error outcome of the `findQuietWindow` loop
from index `i`. -/
theorem quietLoop_error_char (FMP traceEnd : ℝ) (tasks : List Task) :
    ∀ (susp : List Task) (i : Nat), tasks.drop i = susp →
      (quietLoop FMP traceEnd tasks susp i = Except.error TRACE_BUSY_MSG ↔
        (∃ j, i ≤ j ∧ j < tasks.length ∧
          (∀ k, i ≤ k → k < j →
            candFits FMP traceEnd tasks k ∧ ¬ candQuiet FMP tasks k) ∧
          ¬ candFits FMP traceEnd tasks j)
        ∨ (∀ j, i ≤ j → j < tasks.length →
            candFits FMP traceEnd tasks j ∧ ¬ candQuiet FMP tasks j)) := by
  intro susp
  induction susp with
  | nil =>
    intro i hdrop
    have hlen : tasks.length ≤ i := List.drop_eq_nil_iff.mp hdrop
    constructor
    · intro _
      right
      intro j hij hj
      omega
    · intro _
      rfl
  | cons e rest ih =>
    intro i hdrop
    obtain ⟨hi, hstart, hrest⟩ := drop_cons_facts tasks e rest i hdrop
    have hend : candEnd FMP tasks i =
        e.stop + getRequiredWindowSizeInMs (e.stop - FMP) := by
      rw [candEnd, hstart]
    rw [quietLoop_cons]
    by_cases hfit : e.stop + getRequiredWindowSizeInMs (e.stop - FMP) > traceEnd
    · rw [if_pos hfit]
      have hnofit : ¬ candFits FMP traceEnd tasks i := by
        rw [candFits, hend]
        exact not_le.mpr hfit
      constructor
      · intro _
        exact Or.inl ⟨i, le_refl i, hi, fun k h1 h2 => absurd h1 (by omega),
          hnofit⟩
      · intro _
        rfl
    · rw [if_neg hfit]
      have hfits : candFits FMP traceEnd tasks i := by
        rw [candFits, hend]
        exact not_lt.mp hfit
      by_cases hbad : (getTaskClustersInWindow tasks (i + 1)
          (e.stop + getRequiredWindowSizeInMs (e.stop - FMP))).any
          (isBadCluster FMP) = true
      · rw [if_pos hbad]
        have hnq : ¬ candQuiet FMP tasks i := by
          rw [candQuiet, hend, hbad]
          simp
        rw [ih (i + 1) hrest]
        constructor
        · rintro (⟨j, hij, hjlen, hbetween, hnof⟩ | hall)
          · left
            refine ⟨j, by omega, hjlen, ?_, hnof⟩
            intro k hik hkj
            rcases eq_or_lt_of_le hik with rfl | hik2
            · exact ⟨hfits, hnq⟩
            · exact hbetween k (by omega) hkj
          · right
            intro j hij hjlen
            rcases eq_or_lt_of_le hij with rfl | hij2
            · exact ⟨hfits, hnq⟩
            · exact hall j (by omega) hjlen
        · rintro (⟨j, hij, hjlen, hbetween, hnof⟩ | hall)
          · left
            have hij2 : i + 1 ≤ j := by
              rcases eq_or_lt_of_le hij with rfl | h2
              · exact absurd hfits hnof
              · omega
            exact ⟨j, hij2, hjlen, fun k hk1 hk2 => hbetween k (by omega) hk2,
              hnof⟩
          · right
            exact fun j h1 h2 => hall j (by omega) h2
      · rw [if_neg hbad]
        have hq : candQuiet FMP tasks i := by
          rw [candQuiet, hend]
          simpa using hbad
        constructor
        · intro h
          exact absurd h (by simp)
        · intro h
          exfalso
          rcases h with ⟨j, hij, hjlen, hbetween, hnof⟩ | hall
          · rcases eq_or_lt_of_le hij with rfl | hlt
            · exact hnof hfits
            · exact (hbetween i (le_refl i) hlt).2 hq
          · exact (hall i (le_refl i) hi).2 hq

/-- Characterisation of the success outcome of the `findQuietWindow` loop
from index `i`. -/
theorem quietLoop_ok_char (FMP traceEnd : ℝ) (tasks : List Task) :
    ∀ (susp : List Task) (i : Nat), tasks.drop i = susp → ∀ v : ℝ,
      (quietLoop FMP traceEnd tasks susp i = Except.ok v ↔
        ∃ j, i ≤ j ∧ j < tasks.length ∧
          (∀ k, i ≤ k → k < j →
            candFits FMP traceEnd tasks k ∧ ¬ candQuiet FMP tasks k) ∧
          candFits FMP traceEnd tasks j ∧ candQuiet FMP tasks j ∧
          v = candStart tasks j) := by
  intro susp
  induction susp with
  | nil =>
    intro i hdrop v
    have hlen : tasks.length ≤ i := List.drop_eq_nil_iff.mp hdrop
    constructor
    · intro h
      exact absurd h (by simp [quietLoop])
    · rintro ⟨j, hij, hjlen, -, -⟩
      omega
  | cons e rest ih =>
    intro i hdrop v
    obtain ⟨hi, hstart, hrest⟩ := drop_cons_facts tasks e rest i hdrop
    have hend : candEnd FMP tasks i =
        e.stop + getRequiredWindowSizeInMs (e.stop - FMP) := by
      rw [candEnd, hstart]
    rw [quietLoop_cons]
    by_cases hfit : e.stop + getRequiredWindowSizeInMs (e.stop - FMP) > traceEnd
    · rw [if_pos hfit]
      have hnofit : ¬ candFits FMP traceEnd tasks i := by
        rw [candFits, hend]
        exact not_le.mpr hfit
      constructor
      · intro h
        exact absurd h (by simp)
      · rintro ⟨j, hij, hjlen, hbetween, hfitj, -, -⟩
        exfalso
        rcases eq_or_lt_of_le hij with rfl | hlt
        · exact hnofit hfitj
        · exact hnofit (hbetween i (le_refl i) hlt).1
    · rw [if_neg hfit]
      have hfits : candFits FMP traceEnd tasks i := by
        rw [candFits, hend]
        exact not_lt.mp hfit
      by_cases hbad : (getTaskClustersInWindow tasks (i + 1)
          (e.stop + getRequiredWindowSizeInMs (e.stop - FMP))).any
          (isBadCluster FMP) = true
      · rw [if_pos hbad]
        have hnq : ¬ candQuiet FMP tasks i := by
          rw [candQuiet, hend, hbad]
          simp
        rw [ih (i + 1) hrest v]
        constructor
        · rintro ⟨j, hij, hjlen, hbetween, hfitj, hqj, hv⟩
          refine ⟨j, by omega, hjlen, ?_, hfitj, hqj, hv⟩
          intro k hik hkj
          rcases eq_or_lt_of_le hik with rfl | hik2
          · exact ⟨hfits, hnq⟩
          · exact hbetween k (by omega) hkj
        · rintro ⟨j, hij, hjlen, hbetween, hfitj, hqj, hv⟩
          have hij2 : i + 1 ≤ j := by
            rcases eq_or_lt_of_le hij with rfl | h2
            · exact absurd hqj hnq
            · omega
          exact ⟨j, hij2, hjlen, fun k hk1 hk2 => hbetween k (by omega) hk2,
            hfitj, hqj, hv⟩
      · rw [if_neg hbad]
        have hq : candQuiet FMP tasks i := by
          rw [candQuiet, hend]
          simpa using hbad
        constructor
        · intro h
          rw [Except.ok.injEq] at h
          exact ⟨i, le_refl i, hi, fun k h1 h2 => absurd h1 (by omega), hfits,
            hq, by rw [← h, hstart]⟩
        · rintro ⟨j, hij, hjlen, hbetween, hfitj, hqj, hv⟩
          rcases eq_or_lt_of_le hij with rfl | hlt
          · rw [Except.ok.injEq, hv, hstart]
          · exact absurd hq (hbetween i (le_refl i) hlt).2

/-- C5: past the base case, `findQuietWindow` examines candidate windows in
long-task order, each starting at a task's end; it raises the busy error
exactly when some examined candidate's window overruns the trace end
(aborting immediately) or every candidate's window has a bad cluster, and
otherwise returns the window start of the earliest quiet candidate. -/
theorem claim_C5 (FMP traceEnd : ℝ) (tasks : List Task) (t0 : Task)
    (rest0 : List Task) (htasks : tasks = t0 :: rest0)
    (hbase : t0.start ≤ FMP + 5000) :
    (findQuietWindow FMP traceEnd tasks = Except.error TRACE_BUSY_MSG ↔
      (∃ j, j < tasks.length ∧
        (∀ k, k < j →
          candFits FMP traceEnd tasks k ∧ ¬ candQuiet FMP tasks k) ∧
        ¬ candFits FMP traceEnd tasks j)
      ∨ (∀ j, j < tasks.length → ¬ candQuiet FMP tasks j))
    ∧ (∀ v : ℝ, findQuietWindow FMP traceEnd tasks = Except.ok v ↔
        ∃ j, j < tasks.length ∧
          (∀ k, k < j →
            candFits FMP traceEnd tasks k ∧ ¬ candQuiet FMP tasks k) ∧
          candFits FMP traceEnd tasks j ∧ candQuiet FMP tasks j ∧
          v = candStart tasks j) := by
  subst htasks
  have hloop : findQuietWindow FMP traceEnd (t0 :: rest0) =
      quietLoop FMP traceEnd (t0 :: rest0) (t0 :: rest0) 0 := by
    show (if t0.start > FMP + MAX_QUIET_WINDOW_SIZE then
        Except.ok FMP
      else quietLoop FMP traceEnd (t0 :: rest0) (t0 :: rest0) 0) = _
    rw [if_neg (by unfold MAX_QUIET_WINDOW_SIZE; exact not_lt.mpr hbase)]
  constructor
  · rw [hloop, quietLoop_error_char FMP traceEnd (t0 :: rest0) (t0 :: rest0) 0
      (List.drop_zero (t0 :: rest0))]
    constructor
    · rintro (⟨j, -, hjlen, hbetween, hnof⟩ | hall)
      · exact Or.inl ⟨j, hjlen, fun k hk => hbetween k (by omega) hk, hnof⟩
      · exact Or.inr fun j hj => (hall j (by omega) hj).2
    · rintro (⟨j, hjlen, hbetween, hnof⟩ | hall)
      · exact Or.inl ⟨j, by omega, hjlen, fun k hk1 hk2 => hbetween k hk2, hnof⟩
      · by_cases hfitall : ∀ j, j < (t0 :: rest0).length →
            candFits FMP traceEnd (t0 :: rest0) j
        · exact Or.inr fun j _ hj => ⟨hfitall j hj, hall j hj⟩
        · classical
          push_neg at hfitall
          obtain ⟨j0, hj0len, hj0⟩ := hfitall
          have hex : ∃ j, j < (t0 :: rest0).length ∧
              ¬ candFits FMP traceEnd (t0 :: rest0) j := ⟨j0, hj0len, hj0⟩
          have hspec := Nat.find_spec hex
          refine Or.inl ⟨Nat.find hex, by omega, hspec.1, ?_, hspec.2⟩
          intro k _ hk
          have hknot := Nat.find_min hex hk
          have hklen : k < (t0 :: rest0).length := by omega
          have hkfits : candFits FMP traceEnd (t0 :: rest0) k := by
            by_contra hnf
            exact hknot ⟨hklen, hnf⟩
          exact ⟨hkfits, hall k hklen⟩
  · intro v
    rw [hloop, quietLoop_ok_char FMP traceEnd (t0 :: rest0) (t0 :: rest0) 0
      (List.drop_zero (t0 :: rest0)) v]
    constructor
    · rintro ⟨j, -, hjlen, hbetween, hfitj, hqj, hv⟩
      exact ⟨j, hjlen, fun k hk => hbetween k (by omega) hk, hfitj, hqj, hv⟩
    · rintro ⟨j, hjlen, hbetween, hfitj, hqj, hv⟩
      exact ⟨j, by omega, hjlen, fun k hk1 hk2 => hbetween k hk2, hfitj, hqj,
        hv⟩

theorem claim_C5_witness :
    findQuietWindow 0 20000 [⟨0, 100⟩] = Except.ok 100 := by
  have hfits : candFits 0 20000 [⟨0, 100⟩] 0 := by
    show candEnd 0 [⟨0, 100⟩] 0 ≤ 20000
    have hcs : candStart [(⟨0, 100⟩ : Task)] 0 = 100 := rfl
    rw [candEnd, hcs]
    have hws : getRequiredWindowSizeInMs ((100 : ℝ) - 0) ≤ 5000 := by
      have h1 : Real.exp (-0.045 * (((100 : ℝ) - 0) / 1000)) ≤ 1 := by
        rw [Real.exp_le_one_iff]
        norm_num
      have h2 : (0 : ℝ) < Real.exp (-0.045 * (((100 : ℝ) - 0) / 1000)) :=
        Real.exp_pos _
      show (4 * Real.exp (-0.045 * (((100 : ℝ) - 0) / 1000)) + 1) * 1000 ≤ 5000
      nlinarith
    linarith [hws]
  have hquiet : candQuiet 0 [⟨0, 100⟩] 0 := by
    show (getTaskClustersInWindow [⟨0, 100⟩] 1 _).any (isBadCluster 0) = false
    rfl
  exact ((claim_C5 0 20000 [⟨0, 100⟩] ⟨0, 100⟩ [] rfl (by norm_num)).2
    100).mpr ⟨0, by norm_num, fun k hk => absurd hk (by omega), hfits, hquiet,
      rfl⟩

/-- Lower bound used for the window-size values: `40 / 3 < e ^ (27/10)`. -/
theorem exp_27_10_gt : (40 / 3 : ℝ) < Real.exp (27 / 10) := by
  have he27 : Real.exp ((27 : ℝ) / 10) ^ 10 = Real.exp 27 := by
    rw [← Real.exp_nat_mul]
    norm_num
  have h27 : Real.exp (27 : ℝ) = Real.exp 1 ^ 27 := by
    rw [← Real.exp_nat_mul]
    norm_num
  have hpow : ((40 : ℝ) / 3) ^ 10 < Real.exp ((27 : ℝ) / 10) ^ 10 := by
    rw [he27, h27]
    calc ((40 : ℝ) / 3) ^ 10 < 2.7182818283 ^ 27 := by norm_num
      _ < Real.exp 1 ^ 27 :=
          pow_lt_pow_left₀ Real.exp_one_gt_d9 (by norm_num) (by norm_num)
  by_contra hle
  exact absurd hpow
    (not_lt.mpr (pow_le_pow_left₀ (Real.exp_pos _).le (not_lt.mp hle) 10))

/-- Upper bound used for the window-size values: `e ^ (27/10) ≤ 4000`. -/
theorem exp_27_10_le : Real.exp ((27 : ℝ) / 10) ≤ 4000 := by
  have h3 : Real.exp (3 : ℝ) = Real.exp 1 ^ 3 := by
    rw [← Real.exp_nat_mul]
    norm_num
  have hub : Real.exp ((27 : ℝ) / 10) ≤ Real.exp 1 ^ 3 := by
    rw [← h3]
    exact Real.exp_le_exp.mpr (by norm_num)
  calc Real.exp ((27 : ℝ) / 10) ≤ Real.exp 1 ^ 3 := hub
    _ ≤ 2.7182818286 ^ 3 :=
        pow_le_pow_left₀ (Real.exp_pos _).le Real.exp_one_lt_d9.le 3
    _ ≤ 4000 := by norm_num

/-- Lower bound for the decay at 200 seconds: `4000 < e ^ 9`. -/
theorem exp_9_gt : (4000 : ℝ) < Real.exp 9 := by
  have h9 : Real.exp (9 : ℝ) = Real.exp 1 ^ 9 := by
    rw [← Real.exp_nat_mul]
    norm_num
  rw [h9]
  calc (4000 : ℝ) < 2.7182818283 ^ 9 := by norm_num
    _ < Real.exp 1 ^ 9 :=
        pow_lt_pow_left₀ Real.exp_one_gt_d9 (by norm_num) (by norm_num)

/-- C6 counterexample: the required window size at `t = 60000` is not
below 1001ms; the decay term `4000 * e ^ (-2.7)` is still about 269. -/
theorem claim_C6_counterexample :
    ¬ getRequiredWindowSizeInMs 60000 < 1001 := by
  have harg : -0.045 * ((60000 : ℝ) / 1000) = -(27 / 10) := by norm_num
  rw [not_lt]
  show (1001 : ℝ) ≤
    (4 * Real.exp (-0.045 * ((60000 : ℝ) / 1000)) + 1) * 1000
  rw [harg, Real.exp_neg]
  have hpos : (0 : ℝ) < Real.exp ((27 : ℝ) / 10) := Real.exp_pos _
  have hinvpos : (0 : ℝ) < (Real.exp ((27 : ℝ) / 10))⁻¹ := inv_pos.mpr hpos
  have hinv : Real.exp ((27 : ℝ) / 10) * (Real.exp ((27 : ℝ) / 10))⁻¹ = 1 :=
    mul_inv_cancel₀ (ne_of_gt hpos)
  nlinarith [exp_27_10_le, hinv, hinvpos,
    mul_nonneg (sub_nonneg.mpr exp_27_10_le) hinvpos.le]

/-- C6 (amended): the required window size follows the stated exponential
formula, equals 5000 at `t = 0`, is strictly decreasing, and tends to 1000
as `t` tends to infinity; at `t = 60000` it is below 1300 (not 1001), and
the 1001 bound holds for example at `t = 200000`. -/
theorem claim_C6_amended :
    (∀ t : ℝ, getRequiredWindowSizeInMs t =
      (4 * Real.exp (-0.045 * (t / 1000)) + 1) * 1000)
    ∧ getRequiredWindowSizeInMs 0 = 5000
    ∧ StrictAnti getRequiredWindowSizeInMs
    ∧ Filter.Tendsto getRequiredWindowSizeInMs Filter.atTop (nhds 1000)
    ∧ getRequiredWindowSizeInMs 60000 < 1300
    ∧ getRequiredWindowSizeInMs 200000 < 1001 := by
  refine ⟨fun t => rfl, ?_, ?_, ?_, ?_, ?_⟩
  · show (4 * Real.exp (-0.045 * ((0 : ℝ) / 1000)) + 1) * 1000 = 5000
    rw [show -0.045 * ((0 : ℝ) / 1000) = 0 by norm_num, Real.exp_zero]
    norm_num
  · intro a b hab
    have hexp : Real.exp (-0.045 * (b / 1000)) < Real.exp (-0.045 * (a / 1000)) :=
      Real.exp_lt_exp.mpr (by linarith)
    show (4 * Real.exp (-0.045 * (b / 1000)) + 1) * 1000 <
      (4 * Real.exp (-0.045 * (a / 1000)) + 1) * 1000
    linarith
  · have h1 : Filter.Tendsto (fun t : ℝ => -0.045 * (t / 1000))
        Filter.atTop Filter.atBot := by
      have hpos : Filter.Tendsto (fun t : ℝ => 0.045 * (t / 1000))
          Filter.atTop Filter.atTop := by
        apply Filter.Tendsto.const_mul_atTop (by norm_num : (0 : ℝ) < 0.045)
        exact Filter.Tendsto.atTop_div_const (by norm_num) Filter.tendsto_id
      have h2 := Filter.tendsto_neg_atTop_atBot.comp hpos
      refine h2.congr fun t => ?_
      simp
    have h2 : Filter.Tendsto (fun t : ℝ => Real.exp (-0.045 * (t / 1000)))
        Filter.atTop (nhds 0) := Real.tendsto_exp_atBot.comp h1
    have h3 := ((h2.const_mul (4 : ℝ)).add_const (1 : ℝ)).mul_const (1000 : ℝ)
    rw [show ((4 : ℝ) * 0 + 1) * 1000 = 1000 by norm_num] at h3
    exact h3
  · have harg : -0.045 * ((60000 : ℝ) / 1000) = -(27 / 10) := by norm_num
    show (4 * Real.exp (-0.045 * ((60000 : ℝ) / 1000)) + 1) * 1000 < 1300
    rw [harg, Real.exp_neg]
    have hpos : (0 : ℝ) < Real.exp ((27 : ℝ) / 10) := Real.exp_pos _
    have hinvpos : (0 : ℝ) < (Real.exp ((27 : ℝ) / 10))⁻¹ := inv_pos.mpr hpos
    have hinv : Real.exp ((27 : ℝ) / 10) * (Real.exp ((27 : ℝ) / 10))⁻¹ = 1 :=
      mul_inv_cancel₀ (ne_of_gt hpos)
    nlinarith [exp_27_10_gt, hinv, hinvpos,
      mul_pos (sub_pos.mpr exp_27_10_gt) hinvpos]
  · have harg : -0.045 * ((200000 : ℝ) / 1000) = -(9 : ℝ) := by norm_num
    show (4 * Real.exp (-0.045 * ((200000 : ℝ) / 1000)) + 1) * 1000 < 1001
    rw [harg, Real.exp_neg]
    have hpos : (0 : ℝ) < Real.exp (9 : ℝ) := Real.exp_pos _
    have hinvpos : (0 : ℝ) < (Real.exp (9 : ℝ))⁻¹ := inv_pos.mpr hpos
    have hinv : Real.exp (9 : ℝ) * (Real.exp (9 : ℝ))⁻¹ = 1 :=
      mul_inv_cancel₀ (ne_of_gt hpos)
    nlinarith [exp_9_gt, hinv, hinvpos,
      mul_pos (sub_pos.mpr exp_9_gt) hinvpos]

theorem claim_C6_witness :
    getRequiredWindowSizeInMs 60000 < getRequiredWindowSizeInMs 0 :=
  claim_C6_amended.2.2.1 (by norm_num : (0 : ℝ) < 60000)

/-- C7 counterexample: with weights `1` and `-1` the total weight is `0`
but the weighted sum is `100`, and the JS expression
`(sum / weight) || 0` yields `Infinity`, not `0`. -/
theorem claim_C7_counterexample :
    meanAccum [⟨JSVal.num (JNum.fin 100), JSVal.num (JNum.fin 1)⟩,
        ⟨JSVal.num (JNum.fin 0), JSVal.num (JNum.fin (-1))⟩] =
      (JNum.fin 0, JNum.fin 100)
    ∧ arithmeticMean [⟨JSVal.num (JNum.fin 100), JSVal.num (JNum.fin 1)⟩,
        ⟨JSVal.num (JNum.fin 0), JSVal.num (JNum.fin (-1))⟩] = JNum.posInf
    ∧ arithmeticMean [⟨JSVal.num (JNum.fin 100), JSVal.num (JNum.fin 1)⟩,
        ⟨JSVal.num (JNum.fin 0), JSVal.num (JNum.fin (-1))⟩] ≠ JNum.fin 0 := by
  refine ⟨?_, ?_, ?_⟩ <;>
    · norm_num [meanAccum, arithmeticMean, toNumberOrZero, toNumber, jsOrZero,
        JNum.add, JNum.mul, JNum.div]
      try decide

/-- C7 (amended): `arithmeticMean` returns the weighted sum divided by the
total weight when the total weight is nonzero; when the total weight is
zero it returns `0` only if the weighted sum is also zero, and a signed
infinity otherwise.  The three concrete examples of the spec hold. -/
theorem claim_C7_amended :
    (∀ (items : List ScoreItem) (S W : ℚ),
      meanAccum items = (JNum.fin W, JNum.fin S) →
        (W ≠ 0 → arithmeticMean items = JNum.fin (S / W))
        ∧ (W = 0 → S = 0 → arithmeticMean items = JNum.fin 0)
        ∧ (W = 0 → 0 < S → arithmeticMean items = JNum.posInf)
        ∧ (W = 0 → S < 0 → arithmeticMean items = JNum.negInf))
    ∧ arithmeticMean [⟨JSVal.num (JNum.fin 100), JSVal.num (JNum.fin 1)⟩,
        ⟨JSVal.num (JNum.fin 0), JSVal.num (JNum.fin 1)⟩] = JNum.fin 50
    ∧ arithmeticMean [] = JNum.fin 0
    ∧ arithmeticMean [⟨JSVal.num (JNum.fin 100), JSVal.num (JNum.fin 0)⟩] =
        JNum.fin 0 := by
  refine ⟨?_, by norm_num [meanAccum, arithmeticMean, toNumberOrZero, toNumber, jsOrZero, JNum.add, JNum.mul, JNum.div], by norm_num [meanAccum, arithmeticMean, toNumberOrZero, toNumber, jsOrZero, JNum.add, JNum.mul, JNum.div], by norm_num [meanAccum, arithmeticMean, toNumberOrZero, toNumber, jsOrZero, JNum.add, JNum.mul, JNum.div]⟩
  intro items S W h
  have hmean : arithmeticMean items =
      jsOrZero (JNum.div (JNum.fin S) (JNum.fin W)) := by
    rw [arithmeticMean, h]
  refine ⟨?_, ?_, ?_, ?_⟩
  · intro hW
    have hdiv : JNum.div (JNum.fin S) (JNum.fin W) = JNum.fin (S / W) := by
      show (if W = 0 then
          (if S = 0 then JNum.nan else if 0 < S then JNum.posInf
            else JNum.negInf)
        else JNum.fin (S / W)) = JNum.fin (S / W)
      rw [if_neg hW]
    rw [hmean, hdiv]
    show (if S / W = 0 then JNum.fin 0 else JNum.fin (S / W)) = JNum.fin (S / W)
    by_cases h0 : S / W = 0
    · rw [if_pos h0, h0]
    · rw [if_neg h0]
  · intro hW hS
    have hdiv : JNum.div (JNum.fin S) (JNum.fin W) = JNum.nan := by
      show (if W = 0 then
          (if S = 0 then JNum.nan else if 0 < S then JNum.posInf
            else JNum.negInf)
        else JNum.fin (S / W)) = JNum.nan
      rw [if_pos hW, if_pos hS]
    rw [hmean, hdiv]
    rfl
  · intro hW hS
    have hdiv : JNum.div (JNum.fin S) (JNum.fin W) = JNum.posInf := by
      show (if W = 0 then
          (if S = 0 then JNum.nan else if 0 < S then JNum.posInf
            else JNum.negInf)
        else JNum.fin (S / W)) = JNum.posInf
      rw [if_pos hW, if_neg (ne_of_gt hS), if_pos hS]
    rw [hmean, hdiv]
    rfl
  · intro hW hS
    have hdiv : JNum.div (JNum.fin S) (JNum.fin W) = JNum.negInf := by
      show (if W = 0 then
          (if S = 0 then JNum.nan else if 0 < S then JNum.posInf
            else JNum.negInf)
        else JNum.fin (S / W)) = JNum.negInf
      rw [if_pos hW, if_neg (ne_of_lt hS), if_neg (not_lt.mpr hS.le)]
    rw [hmean, hdiv]
    rfl

theorem claim_C7_witness :
    arithmeticMean [⟨JSVal.num (JNum.fin 100), JSVal.num (JNum.fin 1)⟩,
      ⟨JSVal.num (JNum.fin 0), JSVal.num (JNum.fin 1)⟩] = JNum.fin (100 / 2) :=
  ((claim_C7_amended.1 [⟨JSVal.num (JNum.fin 100), JSVal.num (JNum.fin 1)⟩,
      ⟨JSVal.num (JNum.fin 0), JSVal.num (JNum.fin 1)⟩] 100 2 (by norm_num [meanAccum, toNumberOrZero, toNumber, jsOrZero, JNum.add, JNum.mul])).1
    (by norm_num))

/-- A throwing map succeeds when every element succeeds, and every output
satisfies what the callback guarantees. -/
theorem mapExcept_ok {α β : Type} (f : α → Except String β) (P : β → Prop)
    (l : List α) (hall : ∀ a ∈ l, ∃ b, f a = Except.ok b)
    (hP : ∀ a b, f a = Except.ok b → P b) :
    ∃ bs, mapExcept f l = Except.ok bs ∧ ∀ b ∈ bs, P b := by
  induction l with
  | nil => exact ⟨[], rfl, by simp⟩
  | cons a l ih =>
    obtain ⟨b, hb⟩ := hall a (List.mem_cons_self a l)
    obtain ⟨bs, hbs, hmem⟩ := ih fun x hx => hall x (List.mem_cons_of_mem a hx)
    refine ⟨b :: bs, ?_, ?_⟩
    · simp only [mapExcept, hb, hbs]
    · intro c hc
      rcases List.mem_cons.mp hc with rfl | hc2
      · exact hP a c hb
      · exact hmem c hc2

/-- Every audit scored by `scoreOneAudit` carries the normalised score of
its raw result. -/
theorem scoreOneAudit_score (results : ResultsById) (audit : AuditRef)
    (sa : ScoredAudit) (h : scoreOneAudit results audit = Except.ok sa) :
    sa.score = auditScoreOf sa.result.score := by
  rcases hsome : lookupResult results audit.id with _ | r
  · simp [scoreOneAudit, hsome] at h
  · simp only [scoreOneAudit, hsome] at h
    rw [Except.ok.injEq] at h
    rw [← h]

/-- `scoreCategory` succeeds when the results mapping covers every audit
id of the category. -/
theorem scoreCategory_ok (results : ResultsById) (cat : CategoryConfig)
    (hcov : ∀ a ∈ cat.audits, (lookupResult results a.id).isSome = true) :
    ∃ scored score, scoreCategory results cat = Except.ok (scored, score)
      ∧ ∀ sa ∈ scored, sa.score = auditScoreOf sa.result.score := by
  have hall : ∀ a ∈ cat.audits, ∃ b, scoreOneAudit results a = Except.ok b := by
    intro a ha
    rcases hsome : lookupResult results a.id with _ | r
    · exact absurd (hcov a ha) (by rw [hsome]; simp)
    · exact ⟨⟨a, r, auditScoreOf r.score⟩, by simp only [scoreOneAudit, hsome]⟩
  obtain ⟨bs, hbs, hmem⟩ := mapExcept_ok (scoreOneAudit results)
    (fun sa => sa.score = auditScoreOf sa.result.score) cat.audits hall
    (fun a b h => scoreOneAudit_score results a b h)
  refine ⟨bs, arithmeticMean (bs.map fun sa =>
    ScoreItem.mk (JSVal.num sa.score) sa.audit.weight), ?_, hmem⟩
  simp only [scoreCategory, hbs]

/-- `processCategories` succeeds under full coverage and keeps the
normalised scores on every produced audit entry. -/
theorem processCategories_ok (results : ResultsById)
    (cats : List (String × CategoryConfig))
    (hcov : ∀ p ∈ cats, ∀ a ∈ p.2.audits,
      (lookupResult results a.id).isSome = true) :
    ∃ out, (processCategories results cats).1 = Except.ok out
      ∧ ∀ c ∈ out, ∀ sa ∈ c.audits,
          sa.score = auditScoreOf sa.result.score := by
  induction cats with
  | nil => exact ⟨[], rfl, by simp⟩
  | cons p rest ih =>
    obtain ⟨cid, cat⟩ := p
    have hcat : ∀ a ∈ ({ cat with id := some cid } : CategoryConfig).audits,
        (lookupResult results a.id).isSome = true :=
      fun a ha => hcov (cid, cat) (List.mem_cons_self _ _) a ha
    obtain ⟨scored, score, hsc, hP⟩ :=
      scoreCategory_ok results { cat with id := some cid } hcat
    obtain ⟨out, hout, houtP⟩ :=
      ih fun q hq => hcov q (List.mem_cons_of_mem _ hq)
    refine ⟨ScoredCategory.mk cid { cat with id := some cid } scored score
      :: out, ?_, ?_⟩
    · simp only [processCategories, hsc, hout]
    · intro c hc sa hsa
      rcases List.mem_cons.mp hc with rfl | hc2
      · exact hP sa hsa
      · exact houtP c hc2 sa hsa

/-- C8 counterexample: a configuration referencing audit id `"a"` with an
empty results mapping makes `generateReportJson` throw a `TypeError`
instead of producing a report. -/
theorem claim_C8_counterexample :
    (generateReportJson cfgC10 []).1 =
      Except.error "TypeError: Cannot read property score of undefined" := by
  rfl

/-- C8 (amended): when the results mapping has an entry for every audit id
referenced by the configuration, `generateReportJson` returns a report,
with every stored audit score equal to the normalisation of its raw score:
booleans map to 100/0, `null` and a missing (`undefined`) score map to 0,
numbers pass through; an absent or null weight normalises to 0 and a
boolean weight to JS `Number` semantics (1/0).  Without such an entry it
throws. -/
theorem claim_C8 (config : Config) (results : ResultsById)
    (hcov : ∀ p ∈ config.categories, ∀ a ∈ p.2.audits,
      (lookupResult results a.id).isSome = true) :
    (∃ r : Report, (generateReportJson config results).1 = Except.ok r
      ∧ ∀ c ∈ r.categories, ∀ sa ∈ c.audits,
          sa.score = auditScoreOf sa.result.score)
    ∧ (∀ b : Bool, auditScoreOf (JSVal.boolean b) =
        JNum.fin (if b then 100 else 0))
    ∧ auditScoreOf JSVal.null = JNum.fin 0
    ∧ auditScoreOf JSVal.undefined = JNum.fin 0
    ∧ (∀ q : ℚ, auditScoreOf (JSVal.num (JNum.fin q)) = JNum.fin q)
    ∧ toNumberOrZero JSVal.undefined = JNum.fin 0
    ∧ toNumberOrZero JSVal.null = JNum.fin 0
    ∧ (∀ b : Bool, toNumberOrZero (JSVal.boolean b) =
        JNum.fin (if b then 1 else 0)) := by
  refine ⟨?_, ?_, rfl, rfl, ?_, rfl, rfl, ?_⟩
  · obtain ⟨out, hout, houtP⟩ :=
      processCategories_ok results config.categories hcov
    refine ⟨Report.mk (arithmeticMean (out.map fun c =>
        ScoreItem.mk (JSVal.num c.score) c.category.weight)) out
      (getAggregations out), ?_, houtP⟩
    simp only [generateReportJson, hout]
  · intro b
    cases b <;> rfl
  · intro q
    by_cases h : q = 0 <;>
      simp [auditScoreOf, toNumberOrZero, toNumber, jsOrZero, h]
  · intro b
    cases b <;> rfl

theorem claim_C8_witness :
    ∃ r : Report,
      (generateReportJson
        ⟨[("perf", ⟨none, "Perf", "", JSVal.num (JNum.fin 1),
          [⟨"a", JSVal.num (JNum.fin 1)⟩]⟩)]⟩
        [("a", ⟨JSVal.boolean true⟩)]).1 = Except.ok r
      ∧ ∀ c ∈ r.categories, ∀ sa ∈ c.audits,
          sa.score = auditScoreOf sa.result.score :=
  (claim_C8 ⟨[("perf", ⟨none, "Perf", "", JSVal.num (JNum.fin 1),
      [⟨"a", JSVal.num (JNum.fin 1)⟩]⟩)]⟩
    [("a", ⟨JSVal.boolean true⟩)] (by decide)).1

/-- Shape of the post-state of `config.categories`: each entry is either
untouched or exactly id-stamped, and on success all are stamped. -/
theorem processCategories_post (results : ResultsById)
    (cats : List (String × CategoryConfig)) :
    (processCategories results cats).2.length = cats.length
    ∧ (∀ j, j < cats.length →
        (processCategories results cats).2.getD j dummyCategory =
          cats.getD j dummyCategory
        ∨ (processCategories results cats).2.getD j dummyCategory =
          stampCategory (cats.getD j dummyCategory))
    ∧ (∀ out, (processCategories results cats).1 = Except.ok out →
        (processCategories results cats).2 = cats.map stampCategory) := by
  induction cats with
  | nil =>
    refine ⟨rfl, ?_, ?_⟩
    · intro j hj
      exact absurd hj (by simp)
    · intro out _
      rfl
  | cons p rest ih =>
    obtain ⟨cid, cat⟩ := p
    rcases hsc : scoreCategory results { cat with id := some cid } with e | pr
    · refine ⟨?_, ?_, ?_⟩
      · simp only [processCategories, hsc]
        simp
      · intro j hj
        simp only [processCategories, hsc]
        cases j with
        | zero => exact Or.inr rfl
        | succ j => exact Or.inl rfl
      · intro out hout
        simp only [processCategories, hsc] at hout
        exact absurd hout (by simp)
    · obtain ⟨scored, score⟩ := pr
      rcases hrest : (processCategories results rest).1 with e2 | out2
      · refine ⟨?_, ?_, ?_⟩
        · simp only [processCategories, hsc, hrest]
          simpa using ih.1
        · intro j hj
          simp only [processCategories, hsc, hrest]
          cases j with
          | zero => exact Or.inr rfl
          | succ j =>
            simpa using ih.2.1 j (by simpa using hj)
        · intro out hout
          simp only [processCategories, hsc, hrest] at hout
          exact absurd hout (by simp)
      · refine ⟨?_, ?_, ?_⟩
        · simp only [processCategories, hsc, hrest]
          simpa using ih.1
        · intro j hj
          simp only [processCategories, hsc, hrest]
          cases j with
          | zero => exact Or.inr rfl
          | succ j =>
            simpa using ih.2.1 j (by simpa using hj)
        · intro out hout
          simp only [processCategories, hsc, hrest]
          rw [List.map_cons]
          rw [ih.2.2 out2 hrest]
          rfl

/-- The post-state config of `generateReportJson` is exactly the one of
`processCategories`. -/
theorem generateReportJson_post (config : Config) (results : ResultsById) :
    (generateReportJson config results).2.categories =
      (processCategories results config.categories).2 := by
  rcases h : (processCategories results config.categories).1 with e | out <;>
    simp [generateReportJson, h]

/-- C10 (amended): `generateReportJson` mutates its config argument by
writing each category key into that category's `id` property; on normal
return every category is stamped, on an exception a prefix through the
failing category is stamped and the rest untouched; in all cases no field
other than `id` changes. -/
theorem claim_C10_amended (config : Config) (results : ResultsById) :
    (generateReportJson config results).2.categories.length =
      config.categories.length
    ∧ (∀ j, j < config.categories.length →
        (generateReportJson config results).2.categories.getD j dummyCategory =
          config.categories.getD j dummyCategory
        ∨ (generateReportJson config results).2.categories.getD j dummyCategory =
          stampCategory (config.categories.getD j dummyCategory))
    ∧ (∀ r, (generateReportJson config results).1 = Except.ok r →
        (generateReportJson config results).2.categories =
          config.categories.map stampCategory) := by
  have hpost := generateReportJson_post config results
  have hp := processCategories_post results config.categories
  refine ⟨by rw [hpost]; exact hp.1, ?_, ?_⟩
  · intro j hj
    rw [hpost]
    exact hp.2.1 j hj
  · intro r hr
    rw [hpost]
    rcases h : (processCategories results config.categories).1 with e | out
    · rw [generateReportJson] at hr
      simp only [h] at hr
      exact absurd hr (by simp)
    · exact hp.2.2 out h

/-- C10 counterexample: with two categories and an empty results mapping,
the call throws after stamping only the first category; the second
category's `id` is left unset, so not every category id is written. -/
theorem claim_C10_counterexample :
    ((generateReportJson cfgC10 []).2.categories.map fun p => p.2.id) =
      [some "c1", none]
    ∧ ((generateReportJson cfgC10 []).2.categories.map fun p => p.2.id) ≠
      [some "c1", some "c2"] := by
  constructor
  · rfl
  · intro h
    rw [show ((generateReportJson cfgC10 []).2.categories.map
        fun p => p.2.id) = [some "c1", none] from rfl] at h
    simp at h

theorem claim_C10_witness :
    (generateReportJson cfgSmall []).2.categories =
      cfgSmall.categories.map stampCategory
    ∧ ((generateReportJson cfgSmall []).2.categories.getD 0 dummyCategory =
        cfgSmall.categories.getD 0 dummyCategory
      ∨ (generateReportJson cfgSmall []).2.categories.getD 0 dummyCategory =
        stampCategory (cfgSmall.categories.getD 0 dummyCategory)) :=
  ⟨(claim_C10_amended cfgSmall []).2.2
      (Report.mk (JNum.fin 0)
        [ScoredCategory.mk "c" ⟨some "c", "N", "", JSVal.num (JNum.fin 1), []⟩
          [] (JNum.fin 0)]
        [Aggregation.mk "N" "" false false (JNum.fin 0) (JNum.fin 0) []])
      (by
        norm_num [generateReportJson, processCategories, scoreCategory,
          mapExcept, arithmeticMean, meanAccum, getAggregations, jsOrZero,
          JNum.div, JNum.add, JNum.mul, toNumberOrZero, toNumber, cfgSmall]
        decide),
   (claim_C10_amended cfgSmall []).2.1 0 (by decide)⟩

/-- C9: in the sequential model of the single-threaded cache, `n` requests
for the same fresh key run exactly one underlying computation, and every
requester observes the same settled outcome, also when it is a failure. -/
theorem claim_C9 {V : Type} (n : Nat) (hn : 1 ≤ n)
    (compute : Except String V) (key : String) :
    (requestTimes compute key n ⟨[]⟩).2.2 = 1
    ∧ ∀ r ∈ (requestTimes compute key n ⟨[]⟩).2.1, r = compute := by
  have hcached : ∀ (m : Nat) (cache : ArtifactCache V),
      cache.entries.find? (fun p => p.1 == key) = some (key, compute) →
      requestTimes compute key m cache = (cache, List.replicate m compute, 0) := by
    intro m
    induction m with
    | zero =>
      intro cache h
      rfl
    | succ m ihm =>
      intro cache h
      have hstep : requestArtifact compute cache key = (cache, compute, 0) := by
        simp only [requestArtifact, h]
      simp only [requestTimes, hstep, ihm cache h]
      rfl
  obtain ⟨m, rfl⟩ : ∃ m, n = m + 1 := ⟨n - 1, by omega⟩
  have hfirst : requestArtifact compute ⟨[]⟩ key =
      (⟨[(key, compute)]⟩, compute, 1) := by
    simp only [requestArtifact, List.find?]
  have hfind : (([(key, compute)] : List (String × Except String V)).find?
      fun p => p.1 == key) = some (key, compute) := by
    simp [List.find?]
  have hrest := hcached m ⟨[(key, compute)]⟩ hfind
  simp only [requestTimes, hfirst, hrest]
  constructor
  · simp
  · intro r hr
    rcases List.mem_cons.mp hr with rfl | h2
    · rfl
    · exact List.eq_of_mem_replicate h2

theorem claim_C9_witness :
    (requestTimes (Except.error "boom" : Except String Nat)
      "FirstInteractive" 3 ⟨[]⟩).2.2 = 1
    ∧ ∀ r ∈ (requestTimes (Except.error "boom" : Except String Nat)
        "FirstInteractive" 3 ⟨[]⟩).2.1, r = Except.error "boom" :=
  claim_C9 3 (by norm_num) (Except.error "boom") "FirstInteractive"

end Lighthouse
